import Mathlib

/-!
# Kanban front end: real-time event synchronisation

A shallow embedding of

* `src/frontend/src/pages/Dashboard.jsx`: `processTaskEvent`, `handleTaskEvent`,
  the queued-events effect, `onEditStart`, `onEditEnd`;
* `src/frontend/src/hooks/useWebSocket.js`: the ref through which the socket reaches
  `handleTaskEvent`;
* `src/frontend/src/services/websocket.js`: the `WebSocketService` class.

JavaScript values are embedded as follows.  A task id is a JSON integer (`Int`);
a field that may be missing (`event.task`, `event.taskId`, `this.client`) is an
`Option`; the truthiness test `if (x)` on such a field is `truthy`.  Console output
is not modelled.
-/

namespace Kanban

/-! ## Data model -/

/-- Task status, as sent by the server. -/
inductive Status where
  | TO_DO
  | IN_PROGRESS
  | DONE
  deriving DecidableEq, Repr

/-- Task priority, as sent by the server. -/
inductive Priority where
  | LOW
  | MEDIUM
  | HIGH
  deriving DecidableEq, Repr

/-- Task record held in the `tasks` state of the dashboard. -/
structure Task where
  id : Int
  title : String
  description : Option String
  status : Status
  priority : Priority
  version : Int
  deriving DecidableEq, Repr

/-- Message published on the tasks topic: `{ type, task?, taskId? }`. -/
structure TaskEvent where
  type : String
  task : Option Task
  taskId : Option Int
  deriving DecidableEq, Repr

/-- Value held by the `tasks` state: an array of tasks, or anything else
(`Array.isArray` is false for it). -/
inductive TasksValue where
  | array (ts : List Task)
  | notArray
  deriving DecidableEq, Repr

/-- JavaScript truthiness of an optional number: `undefined`/`null` and `0` are falsy. -/
def truthy : Option Int → Bool
  | none => false
  | some n => n != 0

/-- The expression `Array.isArray(currentTasks) ? currentTasks : []`. -/
def TasksValue.taskList : TasksValue → List Task
  | .array ts => ts
  | .notArray => []

/-! ## Event reducer (`Dashboard.jsx`, lines 38-68) -/

/-- The function `processTaskEvent(event, currentTasks)`. -/
def processTaskEvent (event : TaskEvent) (currentTasks : TasksValue) : List Task :=
  let taskList := currentTasks.taskList
  if event.type = "CREATED" then
    match event.task with
    | some task =>
      if (taskList.find? (fun t => t.id == task.id)).isNone then
        taskList ++ [task]
      else
        taskList
    | none => taskList
  else if event.type = "UPDATED" then
    match event.task with
    | some task => taskList.map (fun t => if t.id == task.id then task else t)
    | none => taskList
  else if event.type = "DELETED" then
    if truthy event.taskId then
      taskList.filter (fun t => decide (some t.id ≠ event.taskId))
    else
      taskList
  else
    taskList

/-! ## Edit gate (`Dashboard.jsx`, lines 14-15, 71-99, 136-137; `useWebSocket.js`, lines 9-20)

The component is embedded with the phases of React made explicit.  A `set...` call
queues a state update; a render applies the queued updates in order and commits the
result; the passive effects of a commit (`useEffect`) run later, at the latest at the
start of the next render.  A function created by a render reads the state of that
render.  The socket reaches `handleTaskEvent` through `onTaskEventRef.current`, which a
passive effect of `useWebSocket` sets to the function of the latest render. -/

/-- The `useState` cells of `Dashboard` that the event pipeline reads and writes. -/
structure Dashboard where
  tasks : TasksValue
  isEditingTask : Bool
  queuedEvents : List TaskEvent
  deriving DecidableEq, Repr

/-- State on mount for a given content of `tasks`: not editing, nothing queued. -/
def Dashboard.initial (tasks : TasksValue) : Dashboard :=
  { tasks := tasks, isEditingTask := false, queuedEvents := [] }

/-- A queued state update, one constructor per `set...` call of the pipeline:
`setTasks((currentTasks) => processTaskEvent(event, currentTasks))`,
`setTasks((currentTasks) => ...forEach over the captured queuedEvents...)`,
`setIsEditingTask(value)`, `setQueuedEvents((prev) => [...prev, event])` and
`setQueuedEvents(value)`. -/
inductive Update where
  | setTasksProcess (event : TaskEvent)
  | setTasksReplay (queuedEvents : List TaskEvent)
  | setIsEditingTask (value : Bool)
  | setQueuedEventsAppend (event : TaskEvent)
  | setQueuedEvents (value : List TaskEvent)
  deriving DecidableEq, Repr

/-- Apply one queued update to the state cells. -/
def Update.apply : Update → Dashboard → Dashboard
  | .setTasksProcess event, s =>
    { s with tasks := .array (processTaskEvent event s.tasks) }
  | .setTasksReplay queuedEvents, s =>
    { s with
      tasks := queuedEvents.foldl
        (fun updatedTasks event => .array (processTaskEvent event updatedTasks)) s.tasks }
  | .setIsEditingTask value, s => { s with isEditingTask := value }
  | .setQueuedEventsAppend event, s => { s with queuedEvents := s.queuedEvents ++ [event] }
  | .setQueuedEvents value, s => { s with queuedEvents := value }

/-- The callback `handleTaskEvent(event)` created by a render whose `isEditingTask` is
the first argument: the state updates it queues. -/
def handleTaskEvent (isEditingTask : Bool) (event : TaskEvent) : List Update :=
  if isEditingTask then
    [.setQueuedEventsAppend event]
  else
    [.setTasksProcess event]

/-- Body of the effect "process queued events when editing ends", created by a render
with state `s`: the state updates it queues. -/
def queuedEventsEffect (s : Dashboard) : List Update :=
  if !s.isEditingTask && decide (s.queuedEvents.length > 0) then
    [.setTasksReplay s.queuedEvents, .setQueuedEvents []]
  else
    []

/-- The prop `onEditStart`: `setIsEditingTask(true)`. -/
def onEditStart : List Update :=
  [.setIsEditingTask true]

/-- The prop `onEditEnd`: `setIsEditingTask(false)`. -/
def onEditEnd : List Update :=
  [.setIsEditingTask false]

/-- Whether a dependency of the queued-events effect (`isEditingTask`, `queuedEvents`)
differs between two renders.  Every `setQueuedEvents` that changes the array installs
one of a different length, so comparing values agrees with comparing references. -/
def depsChanged (prev next : Dashboard) : Bool :=
  prev.isEditingTask != next.isEditingTask || prev.queuedEvents != next.queuedEvents

/-- The mounted component: the state cells of the last committed render, the updates
queued since, the `isEditingTask` read by the function in `onTaskEventRef.current`, and
which passive effects of the last commit have not run yet (the refresh of the ref, the
queued-events effect). -/
structure Component where
  state : Dashboard
  updates : List Update
  refIsEditingTask : Bool
  refreshDue : Bool
  drainDue : Bool
  deriving DecidableEq, Repr

/-- The component once the effects of the first render have run, which is when the
socket subscription exists and events can arrive. -/
def Component.mount (tasks : TasksValue) : Component :=
  { state := Dashboard.initial tasks, updates := [], refIsEditingTask := false,
    refreshDue := false, drainDue := false }

/-- Run the passive effects of the last commit that are due: the queued-events effect
(declared first, `Dashboard.jsx` line 86), then the refresh of `onTaskEventRef`
(`useWebSocket.js` line 12). -/
def flushPassive (c : Component) : Component :=
  { state := c.state
    updates := if c.drainDue then c.updates ++ queuedEventsEffect c.state else c.updates
    refIsEditingTask := if c.refreshDue then c.state.isEditingTask else c.refIsEditingTask
    refreshDue := false
    drainDue := false }

/-- Render and commit: pending passive effects run first, then the queued updates are
applied in order; an effect is due after the commit when one of its dependencies
changed (`handleTaskEvent` is a new function exactly when `isEditingTask` changed). -/
def render (c : Component) : Component :=
  let c1 := flushPassive c
  let next := c1.updates.foldl (fun s u => u.apply s) c1.state
  { state := next
    updates := []
    refIsEditingTask := c1.refIsEditingTask
    refreshDue := c1.state.isEditingTask != next.isEditingTask
    drainDue := depsChanged c1.state next }

/-- What can happen to the component: an event arrives on the socket, an edit session
starts or ends, React renders, React runs the pending passive effects. -/
inductive Action where
  | event (e : TaskEvent)
  | beginEdit
  | endEdit
  | render
  | flushPassive
  deriving DecidableEq, Repr

/-- One step of the component. -/
def Action.apply : Action → Component → Component
  | .event e, c => { c with updates := c.updates ++ handleTaskEvent c.refIsEditingTask e }
  | .beginEdit, c => { c with updates := c.updates ++ onEditStart }
  | .endEdit, c => { c with updates := c.updates ++ onEditEnd }
  | .render, c => Kanban.render c
  | .flushPassive, c => Kanban.flushPassive c

/-- Run a finite trace of actions. -/
def run (c : Component) (trace : List Action) : Component :=
  trace.foldl (fun st a => a.apply st) c

/-- A step after which React renders and runs the passive effects before anything else
happens (twice: the effects may queue updates of their own). -/
def eagerStep (a : Action) (c : Component) : Component :=
  flushPassive (render (flushPassive (render (a.apply c))))

/-- Run a trace with every step followed at once by its renders and effects. -/
def runEagerly (c : Component) (trace : List Action) : Component :=
  trace.foldl (fun st a => eagerStep a st) c

/-- Nothing is left to do: no update queued, no passive effect pending. -/
def Component.quiescent (c : Component) : Bool :=
  c.updates.isEmpty && !c.refreshDue && !c.drainDue

/-- The events of a trace, in arrival order. -/
def arrived : List Action → List TaskEvent
  | [] => []
  | .event e :: rest => e :: arrived rest
  | _ :: rest => arrived rest

/-- Left fold of `processTaskEvent` over a list of events. -/
def reduceAll (tasks : TasksValue) (events : List TaskEvent) : TasksValue :=
  events.foldl (fun acc e => .array (processTaskEvent e acc)) tasks

/-- The ids of a collection, in order. -/
def ids (c : List Task) : List Int :=
  c.map (fun t => t.id)

/-- A component at rest between steps: nothing queued or pending, the ref holds the
function of the last render, and an idle gate has an empty queue. -/
def AtRest (c : Component) : Prop :=
  c.updates = [] ∧ c.refIsEditingTask = c.state.isEditingTask ∧ c.refreshDue = false ∧
  c.drainDue = false ∧ (c.state.isEditingTask = false → c.state.queuedEvents = [])

/-- What the collection is once everything queued has been replayed. -/
def settled (s : Dashboard) : TasksValue :=
  reduceAll s.tasks s.queuedEvents

/-! ### Scenario data -/

/-- Task `{id: 1, status: TO_DO}`. -/
def task1 : Task :=
  { id := 1, title := "a", description := none, status := .TO_DO, priority := .LOW, version := 0 }

/-- Task `{id: 2, status: TO_DO}`. -/
def task2 : Task :=
  { id := 2, title := "b", description := none, status := .TO_DO, priority := .LOW, version := 0 }

/-- Task `{id: 1, status: DONE}`. -/
def task1Done : Task :=
  { task1 with status := .DONE, version := 1 }

/-- Task with id `0`. -/
def task0 : Task :=
  { id := 0, title := "z", description := none, status := .TO_DO, priority := .LOW, version := 0 }

/-- Task `{id: 3, status: TO_DO}`. -/
def task3 : Task :=
  { id := 3, title := "c", description := none, status := .TO_DO, priority := .LOW, version := 0 }

/-- Event `Created{id:2}`. -/
def created2 : TaskEvent :=
  { type := "CREATED", task := some task2, taskId := none }

/-- Event `Created{id:3}`. -/
def created3 : TaskEvent :=
  { type := "CREATED", task := some task3, taskId := none }

/-- Gate opens, `Created{id:2}` and `Updated{id:1,status:DONE}` arrive, gate closes. -/
def scenario : List Action :=
  [.beginEdit,
   .event created2,
   .event { type := "UPDATED", task := some task1Done, taskId := none },
   .endEdit]

/-- An edit session during which `Created{id:2}` arrives; the session ends, the
component renders with `isEditingTask` false, and `Created{id:3}` arrives before the
passive effects of that render have run. -/
def lateArrivalQueued : List Action :=
  [.beginEdit, .render, .flushPassive,
   .event created2, .render, .flushPassive,
   .endEdit, .render,
   .event created3]

/-- The schedule `lateArrivalQueued` continued until nothing is left to do: the passive
effects run, the component renders, the effects of that render run. -/
def lateArrival : List Action :=
  lateArrivalQueued ++ [.flushPassive, .render, .flushPassive]

/-! ## Connection manager (`websocket.js`)

The service object and the part of its environment that it acts on (pending
`setTimeout` callbacks, the effects it has caused) are threaded explicitly.  The STOMP
client is represented by what the service reads from it (`connected`) and by its live
subscriptions.  The callbacks given to `connect` are recorded when invoked; the ones
the application passes (`useWebSocket.js`) log, or call `subscribe`, which is a step of
its own here. -/

/-- The arguments `onConnect`, `onError`, `onDisconnect` of `connect`: `true` when a
function was passed. -/
structure Callbacks where
  onConnect : Bool
  onError : Bool
  onDisconnect : Bool
  deriving DecidableEq, Repr

/-- Handle returned by `client.subscribe`: the client that issued it, its id there, the
destination and the label of the handler that receives the messages. -/
structure Subscription where
  client : Nat
  id : Nat
  topic : String
  callback : Nat
  deriving DecidableEq, Repr

/-- The `Client` object of the STOMP library, as the service observes it; `callbacks`
are the arguments of `connect` that its handlers captured. -/
structure Client where
  serial : Nat
  callbacks : Callbacks
  connected : Bool
  active : Bool
  subscriptions : List Subscription
  counter : Nat
  deriving DecidableEq, Repr

/-- Effects of the service on its environment, in the order they happen. -/
inductive Effect where
  | openTransport
  | deactivate
  | setTimeout (delay : Nat)
  | unsubscribe (client id : Nat)
  | onConnect
  | onError
  | onDisconnect
  deriving DecidableEq, Repr

/-- Pending `setTimeout` callback of `attemptReconnect`: it calls `connect` with the
captured callbacks after `delay` milliseconds. -/
structure Timer where
  delay : Nat
  callbacks : Callbacks
  deriving DecidableEq, Repr

/-- Fields of a `WebSocketService` instance. -/
structure WebSocketService where
  client : Option Client
  subscriptions : List (String × Subscription)
  reconnectAttempts : Nat
  maxReconnectAttempts : Nat
  reconnectDelay : Nat
  isConnecting : Bool
  deriving DecidableEq, Repr

/-- The service together with its environment. -/
structure World where
  service : WebSocketService
  timers : List Timer
  log : List Effect
  clients : Nat
  deriving DecidableEq, Repr

/-- The constructor of `WebSocketService`. -/
def WebSocketService.new : WebSocketService :=
  { client := none
    subscriptions := []
    reconnectAttempts := 0
    maxReconnectAttempts := 5
    reconnectDelay := 3000
    isConnecting := false }

/-- The singleton `webSocketService` at module load. -/
def World.fresh : World :=
  { service := WebSocketService.new, timers := [], log := [], clients := 0 }

/-- The expression `this.client && this.client.connected`. -/
def WebSocketService.clientConnected (s : WebSocketService) : Bool :=
  match s.client with
  | some c => c.connected
  | none => false

/-- The method `isConnected()`. -/
def isConnected (w : World) : Bool :=
  w.service.clientConnected

/-- The call `subscription.unsubscribe()` as seen by client `c`: it cancels the
subscription on the client that issued it. -/
def Client.unsubscribe (sub : Subscription) (c : Client) : Client :=
  if sub.client = c.serial then
    { c with subscriptions := c.subscriptions.filter (fun x => x.id != sub.id) }
  else
    c

/-- `Map.prototype.set` on the topic map. -/
def mapSet (m : List (String × Subscription)) (topic : String) (sub : Subscription) :
    List (String × Subscription) :=
  if m.any (fun kv => kv.1 == topic) then
    m.map (fun kv => if kv.1 == topic then (topic, sub) else kv)
  else
    m ++ [(topic, sub)]

/-- `Map.prototype.get` on the topic map. -/
def mapGet (m : List (String × Subscription)) (topic : String) : Option Subscription :=
  (m.find? (fun kv => kv.1 == topic)).map (fun kv => kv.2)

/-- `Map.prototype.delete` on the topic map. -/
def mapDelete (m : List (String × Subscription)) (topic : String) :
    List (String × Subscription) :=
  m.filter (fun kv => kv.1 != topic)

/-- The method `connect(onConnect, onError, onDisconnect)`. -/
def connect (cbs : Callbacks) (w : World) : World :=
  if w.service.isConnecting || w.service.clientConnected then
    w
  else
    { w with
      service := { w.service with
        isConnecting := true
        client := some
          { serial := w.clients, callbacks := cbs, connected := false, active := true,
            subscriptions := [], counter := 0 } }
      log := w.log ++ [.openTransport]
      clients := w.clients + 1 }

/-- The method `attemptReconnect(onConnect, onError, onDisconnect)`. -/
def attemptReconnect (cbs : Callbacks) (w : World) : World :=
  if w.service.reconnectAttempts >= w.service.maxReconnectAttempts then
    w
  else
    let attempts := w.service.reconnectAttempts + 1
    let delay := w.service.reconnectDelay * attempts
    { w with
      service := { w.service with reconnectAttempts := attempts }
      timers := w.timers ++ [{ delay := delay, callbacks := cbs }]
      log := w.log ++ [.setTimeout delay] }

/-- The client option `onConnect: (frame) => ...`. -/
def onConnect (cbs : Callbacks) (w : World) : World :=
  let w1 := { w with service := { w.service with isConnecting := false, reconnectAttempts := 0 } }
  if cbs.onConnect then { w1 with log := w1.log ++ [.onConnect] } else w1

/-- The client option `onStompError: (frame) => ...`. -/
def onStompError (cbs : Callbacks) (w : World) : World :=
  let w1 := { w with service := { w.service with isConnecting := false } }
  if cbs.onError then { w1 with log := w1.log ++ [.onError] } else w1

/-- The client option `onWebSocketClose: (event) => ...`. -/
def onWebSocketClose (cbs : Callbacks) (w : World) : World :=
  let w1 := { w with service := { w.service with isConnecting := false } }
  let w2 := if cbs.onDisconnect then { w1 with log := w1.log ++ [.onDisconnect] } else w1
  if w2.service.client.isSome then attemptReconnect cbs w2 else w2

/-- The client option `onDisconnect: () => ...`. -/
def onDisconnect (w : World) : World :=
  { w with service := { w.service with isConnecting := false } }

/-- The method `subscribe(topic, callback)`; the first component is the returned handle. -/
def subscribe (topic : String) (callback : Nat) (w : World) : Option Subscription × World :=
  match w.service.client with
  | some c =>
    if c.connected then
      let subscription : Subscription :=
        { client := c.serial, id := c.counter, topic := topic, callback := callback }
      let c1 := { c with
        subscriptions := c.subscriptions ++ [subscription], counter := c.counter + 1 }
      (some subscription,
        { w with service := { w.service with
            client := some c1
            subscriptions := mapSet w.service.subscriptions topic subscription } })
    else
      (none, w)
  | none => (none, w)

/-- The method `unsubscribe(topic)`. -/
def unsubscribe (topic : String) (w : World) : World :=
  match mapGet w.service.subscriptions topic with
  | some subscription =>
    { w with
      service := { w.service with
        client := w.service.client.map (Client.unsubscribe subscription)
        subscriptions := mapDelete w.service.subscriptions topic }
      log := w.log ++ [.unsubscribe subscription.client subscription.id] }
  | none => w

/-- The method `disconnect()`. -/
def disconnect (w : World) : World :=
  match w.service.client with
  | some c =>
    let c1 := w.service.subscriptions.foldl (fun acc kv => acc.unsubscribe kv.2) c
    let log1 := w.log ++ w.service.subscriptions.map (fun kv => .unsubscribe kv.2.client kv.2.id)
    let log2 := if c1.connected then log1 ++ [.deactivate] else log1
    { w with
      service := { w.service with subscriptions := [], client := none }
      log := log2 }
  | none => w

/-- What can happen to the service: a method call by the application, a notification
from a STOMP client (which has updated its `connected` flag), or a pending timer
coming due.  A notification may come from a client created by an earlier `connect`,
whose handlers captured the callbacks of that call, so it carries them. -/
inductive ServiceAction where
  | connect (cbs : Callbacks)
  | disconnect
  | subscribe (topic : String) (callback : Nat)
  | unsubscribe (topic : String)
  | stompConnected (cbs : Callbacks)
  | stompError (cbs : Callbacks)
  | webSocketClosed (cbs : Callbacks)
  | stompDisconnected
  | timerFires (i : Nat)
  deriving DecidableEq, Repr

/-- Set the `connected` flag of the current client, as the library does around its
notifications. -/
def setConnected (b : Bool) (w : World) : World :=
  { w with service := { w.service with
      client := w.service.client.map (fun c => { c with connected := b }) } }

/-- Timer number `i` comes due: it leaves the pending list and its callback calls
`connect`. -/
def timerFires (i : Nat) (w : World) : World :=
  match w.timers.get? i with
  | some t => connect t.callbacks { w with timers := w.timers.eraseIdx i }
  | none => w

/-- One step of the service. -/
def ServiceAction.apply : ServiceAction → World → World
  | .connect cbs, w => Kanban.connect cbs w
  | .disconnect, w => Kanban.disconnect w
  | .subscribe topic callback, w => (Kanban.subscribe topic callback w).2
  | .unsubscribe topic, w => Kanban.unsubscribe topic w
  | .stompConnected cbs, w => onConnect cbs (setConnected true w)
  | .stompError cbs, w => onStompError cbs w
  | .webSocketClosed cbs, w => onWebSocketClose cbs (setConnected false w)
  | .stompDisconnected, w => onDisconnect (setConnected false w)
  | .timerFires i, w => Kanban.timerFires i w

/-- A connection is established, then the transport closes six times; the reconnect
timer that is pending comes due after each of the first five closures. -/
def sixClosures : List ServiceAction :=
  [.webSocketClosed ⟨true, true, true⟩, .timerFires 0,
   .webSocketClosed ⟨true, true, true⟩, .timerFires 0,
   .webSocketClosed ⟨true, true, true⟩, .timerFires 0,
   .webSocketClosed ⟨true, true, true⟩, .timerFires 0,
   .webSocketClosed ⟨true, true, true⟩, .timerFires 0,
   .webSocketClosed ⟨true, true, true⟩]

/-- The application connects and the handshake succeeds. -/
def connected : List ServiceAction :=
  [.connect ⟨true, true, true⟩, .stompConnected ⟨true, true, true⟩]

/-- The application connects, the handshake succeeds, the transport closes (one
reconnect timer is now pending). -/
def connectedThenClosed : List ServiceAction :=
  [.connect ⟨true, true, true⟩, .stompConnected ⟨true, true, true⟩,
   .webSocketClosed ⟨true, true, true⟩]

/-- Run a finite trace of service actions. -/
def runService (w : World) (trace : List ServiceAction) : World :=
  trace.foldl (fun st a => a.apply st) w

/-- The delays of the reconnect attempts scheduled so far, oldest first. -/
def scheduledDelays (w : World) : List Nat :=
  w.log.filterMap (fun e => match e with
    | .setTimeout d => some d
    | _ => none)

/-- The number of transports opened so far. -/
def transportsOpened (w : World) : Nat :=
  w.log.count .openTransport

/-- A step without a successful connection and without an explicit call: the transport
closes, or a pending reconnect timer comes due. -/
def ServiceAction.isFailure : ServiceAction → Bool
  | .webSocketClosed _ => true
  | .timerFires _ => true
  | _ => false

/-- The number of transport closures in a trace. -/
def closures (trace : List ServiceAction) : Nat :=
  trace.countP (fun a => match a with
    | .webSocketClosed _ => true
    | _ => false)

instance (c : Component) : Decidable (AtRest c) := by
  unfold AtRest
  infer_instance

/-- The notification of a successful handshake. -/
def ServiceAction.isSuccess : ServiceAction → Bool
  | .stompConnected _ => true
  | _ => false

/-- A step that calls `connect`: the application's call, or a pending reconnect timer
coming due. -/
def ServiceAction.callsConnect : ServiceAction → Bool
  | .connect _ => true
  | .timerFires _ => true
  | _ => false

/-- Invariant of the service: the constants of the constructor, the counter within the
cap, every scheduled delay within `3000 * 5`. -/
def Bounded (w : World) : Prop :=
  w.service.maxReconnectAttempts = 5 ∧ w.service.reconnectDelay = 3000 ∧
  w.service.reconnectAttempts ≤ 5 ∧ ∀ d ∈ scheduledDelays w, d ≤ 15000

instance (w : World) : Decidable (Bounded w) := by
  unfold Bounded
  infer_instance

/-- Callbacks as `useWebSocket.js` passes them: all three present. -/
def hookCallbacks : Callbacks :=
  { onConnect := true, onError := true, onDisconnect := true }

/-- The handlers that receive a message published on `topic`: the STOMP client hands
the message to the handler of each of its live subscriptions to that destination. -/
def deliver (topic : String) (w : World) : List Nat :=
  match w.service.client with
  | some c => (c.subscriptions.filter (fun sub => sub.topic == topic)).map (fun sub => sub.callback)
  | none => []

/-- The topics that have an entry in the `subscriptions` map. -/
def registeredTopics (w : World) : List String :=
  w.service.subscriptions.map (fun kv => kv.1)

/-- The topic of `useWebSocket.js`. -/
def TASK_TOPIC : String := "/topic/tasks"

/-- The application connects, the handshake succeeds, and `subscribe` is called twice
for the tasks topic, with handler 1 and then handler 2. -/
def subscribedTwice : List ServiceAction :=
  [.connect ⟨true, true, true⟩, .stompConnected ⟨true, true, true⟩,
   .subscribe TASK_TOPIC 1, .subscribe TASK_TOPIC 2]

/-- The application connects and calls `disconnect()` before the handshake completes;
the handshake of the client that was dropped then succeeds, and the application
connects again. -/
def reconnectAfterEarlyDisconnect : List ServiceAction :=
  [.connect ⟨true, true, true⟩, .disconnect, .stompConnected ⟨true, true, true⟩,
   .connect ⟨true, true, true⟩]

/-- A protocol error as the transport presents it to the service: the notification of
the ERROR frame, then the closure of the connection on which it was received. -/
def protocolError (cbs : Callbacks) : List ServiceAction :=
  [.stompError cbs, .webSocketClosed cbs]

/-! ## Event reducer: lemmas -/

theorem find_isNone_iff (c : List Task) (i : Int) :
    (c.find? (fun t => t.id == i)).isNone = true ↔ ∀ x ∈ c, x.id ≠ i := by
  simp [Option.isNone_iff_eq_none, List.find?_eq_none]

theorem processTaskEvent_created (e : TaskEvent) (t : Task) (tv : TasksValue)
    (htype : e.type = "CREATED") (htask : e.task = some t) :
    processTaskEvent e tv =
      if (tv.taskList.find? (fun x => x.id == t.id)).isNone then tv.taskList ++ [t]
      else tv.taskList := by
  simp [processTaskEvent, htype, htask]

theorem processTaskEvent_updated (e : TaskEvent) (t : Task) (tv : TasksValue)
    (htype : e.type = "UPDATED") (htask : e.task = some t) :
    processTaskEvent e tv = tv.taskList.map (fun x => if x.id == t.id then t else x) := by
  simp [processTaskEvent, htype, htask]

theorem processTaskEvent_deleted (e : TaskEvent) (tv : TasksValue)
    (htype : e.type = "DELETED") :
    processTaskEvent e tv =
      if truthy e.taskId then tv.taskList.filter (fun t => decide (some t.id ≠ e.taskId))
      else tv.taskList := by
  simp [processTaskEvent, htype]

theorem ids_update (c : List Task) (t : Task) :
    ids (c.map (fun x => if x.id == t.id then t else x)) = ids c := by
  induction c with
  | nil => rfl
  | cons a rest ih =>
    simp only [ids, List.map_cons] at ih ⊢
    rw [ih]
    by_cases h : a.id = t.id
    · simp [h]
    · simp [h]

theorem processTaskEvent_nodup (e : TaskEvent) (tv : TasksValue)
    (h : (ids tv.taskList).Nodup) : (ids (processTaskEvent e tv)).Nodup := by
  unfold processTaskEvent
  simp only []
  split
  · cases htask : e.task with
    | none => simpa using h
    | some t =>
      simp only []
      split
      · rename_i hnone
        have hfresh := (find_isNone_iff tv.taskList t.id).mp hnone
        simp only [ids, List.map_append, List.map_cons, List.map_nil]
        refine List.Nodup.append h (List.nodup_singleton _) ?_
        intro i hi hi2
        simp only [List.mem_singleton] at hi2
        subst hi2
        obtain ⟨x, hx, hxi⟩ := List.mem_map.mp hi
        exact hfresh x hx hxi
      · exact h
  · split
    · cases htask : e.task with
      | none => simpa using h
      | some t =>
        simp only []
        rw [ids_update]
        exact h
    · split
      · split
        · exact List.Nodup.sublist (List.Sublist.map _ (List.filter_sublist _)) h
        · exact h
      · exact h

theorem reduceAll_nodup (evs : List TaskEvent) (tv : TasksValue)
    (h : (ids tv.taskList).Nodup) : (ids (reduceAll tv evs).taskList).Nodup := by
  induction evs generalizing tv with
  | nil => simpa [reduceAll] using h
  | cons e rest ih =>
    have := ih (.array (processTaskEvent e tv))
      (by simpa [TasksValue.taskList] using processTaskEvent_nodup e tv h)
    simpa [reduceAll] using this

/-! ## Event reducer: claims -/

/-- C2. On a `CREATED` event carrying `task`, `processTaskEvent` returns the collection
unchanged when some entry already has `task.id`, and otherwise returns the collection
followed by `task`. -/
theorem created_appends_or_keeps (c : List Task) (e : TaskEvent) (t : Task)
    (htype : e.type = "CREATED") (htask : e.task = some t) :
    ((∃ x ∈ c, x.id = t.id) → processTaskEvent e (.array c) = c) ∧
    ((∀ x ∈ c, x.id ≠ t.id) → processTaskEvent e (.array c) = c ++ [t]) := by
  rw [processTaskEvent_created e t _ htype htask]
  simp only [TasksValue.taskList]
  constructor
  · intro hex
    have : ¬ (c.find? (fun x => x.id == t.id)).isNone = true := by
      rw [find_isNone_iff]
      push_neg
      exact hex
    simp [this]
  · intro hall
    have : (c.find? (fun x => x.id == t.id)).isNone = true :=
      (find_isNone_iff c t.id).mpr hall
    simp [this]

/-- Instance of C2: a duplicate `CREATED` for id 1 leaves `[task1]` as it is. -/
theorem created_appends_or_keeps_witness :
    processTaskEvent { type := "CREATED", task := some task1Done, taskId := none }
      (.array [task1]) = [task1] :=
  (created_appends_or_keeps [task1]
    { type := "CREATED", task := some task1Done, taskId := none } task1Done rfl rfl).1
    ⟨task1, List.mem_singleton.mpr rfl, rfl⟩

/-- C3. On an `UPDATED` event carrying `task`, for a collection with unique ids:
if no entry has `task.id` the collection is returned unchanged; otherwise the result has
the same length, holds `task` at every position whose entry had `task.id`, and holds
the original entry at every other position. -/
theorem updated_replaces_in_place (c : List Task) (e : TaskEvent) (t : Task)
    (_hunique : (ids c).Nodup) (htype : e.type = "UPDATED") (htask : e.task = some t) :
    ((∀ x ∈ c, x.id ≠ t.id) → processTaskEvent e (.array c) = c) ∧
    ((∃ x ∈ c, x.id = t.id) →
      (processTaskEvent e (.array c)).length = c.length ∧
      ∀ i : Nat, ∀ x ∈ c.get? i,
        (x.id = t.id → (processTaskEvent e (.array c)).get? i = some t) ∧
        (x.id ≠ t.id → (processTaskEvent e (.array c)).get? i = some x)) := by
  rw [processTaskEvent_updated e t _ htype htask]
  simp only [TasksValue.taskList]
  constructor
  · intro hall
    conv_rhs => rw [← List.map_id c]
    apply List.map_congr_left
    intro x hx
    simp [hall x hx]
  · intro _
    refine ⟨by simp, ?_⟩
    intro i x hx
    have hx2 : c.get? i = some x := by simpa using hx
    constructor
    · intro hid
      simp [List.get?_eq_getElem?, List.getElem?_map] at hx2 ⊢
      simp [hx2, hid]
    · intro hid
      simp [List.get?_eq_getElem?, List.getElem?_map] at hx2 ⊢
      simp [hx2, hid]

/-- Instance of C3: updating id 1 in `[task1, task2]` puts the new record at index 0. -/
theorem updated_replaces_in_place_witness :
    (ids [task1, task2]).Nodup ∧
    (processTaskEvent { type := "UPDATED", task := some task1Done, taskId := none }
      (.array [task1, task2])).get? 0 = some task1Done :=
  ⟨by decide,
   (((updated_replaces_in_place [task1, task2]
      { type := "UPDATED", task := some task1Done, taskId := none } task1Done
      (by decide) rfl rfl).2 ⟨task1, by simp, rfl⟩).2 0 task1 rfl).1 rfl⟩

/-- On a `DELETED` event whose `taskId` is a non-zero number the result is exactly the
entries with a different id, in their original order. -/
theorem deleted_removes_of_ne_zero (c : List Task) (e : TaskEvent) (i : Int)
    (htype : e.type = "DELETED") (hid : e.taskId = some i) (hi : i ≠ 0) :
    processTaskEvent e (.array c) = c.filter (fun t => decide (t.id ≠ i)) := by
  rw [processTaskEvent_deleted e _ htype]
  simp [TasksValue.taskList, truthy, hid, hi]

/-- C4, evaluated at the failing input. A `DELETED` event with `taskId` 0 leaves the
entry with id 0 in the collection: the guard `if (event.taskId)` is false for 0. -/
theorem deleted_zero_id_remains :
    processTaskEvent { type := "DELETED", task := none, taskId := some 0 }
      (.array [task0, task1]) = [task0, task1] ∧
    (∃ x ∈ processTaskEvent { type := "DELETED", task := none, taskId := some 0 }
      (.array [task0, task1]), x.id = 0) ∧
    processTaskEvent { type := "CREATED", task := some task0, taskId := none }
      (.array [task1]) = [task1, task0] := by
  decide

/-- C5. `processTaskEvent` preserves uniqueness of ids for every event, and so does any
sequence of events applied to a collection with unique ids. -/
theorem unique_ids_preserved (c : List Task) (hunique : (ids c).Nodup) :
    (∀ e : TaskEvent, (ids (processTaskEvent e (.array c))).Nodup) ∧
    (∀ events : List TaskEvent, (ids (reduceAll (.array c) events).taskList).Nodup) :=
  ⟨fun e => processTaskEvent_nodup e (.array c) hunique,
   fun events => reduceAll_nodup events (.array c) hunique⟩

/-- Instance of C5: from `[task1, task2]`, the ids stay distinct after one event and after
two events. -/
theorem unique_ids_preserved_witness :
    (ids [task1, task2]).Nodup ∧
    (ids (processTaskEvent { type := "CREATED", task := some task1Done, taskId := none }
      (.array [task1, task2]))).Nodup ∧
    (ids (reduceAll (.array [task1, task2])
      [{ type := "DELETED", task := none, taskId := some 2 },
       { type := "CREATED", task := some task0, taskId := none }]).taskList).Nodup :=
  ⟨by decide,
   (unique_ids_preserved [task1, task2] (by decide)).1 _,
   (unique_ids_preserved [task1, task2] (by decide)).2 _⟩

/-! ## Edit gate: lemmas -/

theorem reduceAll_append (tv : TasksValue) (xs ys : List TaskEvent) :
    reduceAll tv (xs ++ ys) = reduceAll (reduceAll tv xs) ys := by
  simp [reduceAll, List.foldl_append]

theorem eagerStep_event_idle (e : TaskEvent) (tasks : TasksValue) :
    eagerStep (.event e) ⟨⟨tasks, false, []⟩, [], false, false, false⟩ =
      ⟨⟨.array (processTaskEvent e tasks), false, []⟩, [], false, false, false⟩ := by
  simp [eagerStep, Action.apply, handleTaskEvent, render, flushPassive, depsChanged,
    queuedEventsEffect, Update.apply]

theorem eagerStep_event_editing (e : TaskEvent) (tasks : TasksValue) (q : List TaskEvent) :
    eagerStep (.event e) ⟨⟨tasks, true, q⟩, [], true, false, false⟩ =
      ⟨⟨tasks, true, q ++ [e]⟩, [], true, false, false⟩ := by
  simp [eagerStep, Action.apply, handleTaskEvent, render, flushPassive, depsChanged,
    queuedEventsEffect, Update.apply]

theorem eagerStep_beginEdit (tasks : TasksValue) (b : Bool) (q : List TaskEvent) :
    eagerStep .beginEdit ⟨⟨tasks, b, q⟩, [], b, false, false⟩ =
      ⟨⟨tasks, true, q⟩, [], true, false, false⟩ := by
  cases b <;>
    simp [eagerStep, Action.apply, onEditStart, render, flushPassive, depsChanged,
      queuedEventsEffect, Update.apply]

theorem eagerStep_endEdit_idle (tasks : TasksValue) :
    eagerStep .endEdit ⟨⟨tasks, false, []⟩, [], false, false, false⟩ =
      ⟨⟨tasks, false, []⟩, [], false, false, false⟩ := by
  simp [eagerStep, Action.apply, onEditEnd, render, flushPassive, depsChanged,
    queuedEventsEffect, Update.apply]

theorem eagerStep_endEdit_editing (tasks : TasksValue) (q : List TaskEvent) :
    eagerStep .endEdit ⟨⟨tasks, true, q⟩, [], true, false, false⟩ =
      ⟨⟨reduceAll tasks q, false, []⟩, [], false, false, false⟩ := by
  cases q with
  | nil =>
    simp [eagerStep, Action.apply, onEditEnd, render, flushPassive, depsChanged,
      queuedEventsEffect, Update.apply, reduceAll]
  | cons a rest =>
    simp [eagerStep, Action.apply, onEditEnd, render, flushPassive, depsChanged,
      queuedEventsEffect, Update.apply, reduceAll]

theorem eagerStep_render (s : Dashboard) (b : Bool) :
    eagerStep .render ⟨s, [], b, false, false⟩ = ⟨s, [], b, false, false⟩ := by
  simp [eagerStep, Action.apply, render, flushPassive, depsChanged]

theorem eagerStep_flushPassive (s : Dashboard) (b : Bool) :
    eagerStep .flushPassive ⟨s, [], b, false, false⟩ = ⟨s, [], b, false, false⟩ := by
  simp [eagerStep, Action.apply, render, flushPassive, depsChanged]


theorem eagerStep_atRest (a : Action) (c : Component) (h : AtRest c) :
    AtRest (eagerStep a c) := by
  rcases c with ⟨⟨tasks, b, q⟩, updates, handler, refreshDue, drainDue⟩
  obtain ⟨h1, h2, h3, h4, h5⟩ := h
  simp only at h1 h2 h3 h4 h5
  subst h1 h2 h3 h4
  cases handler with
  | false =>
    have hq : q = [] := h5 rfl
    subst hq
    cases a with
    | event e => rw [eagerStep_event_idle]; exact ⟨rfl, rfl, rfl, rfl, fun _ => rfl⟩
    | beginEdit =>
      rw [eagerStep_beginEdit]
      exact ⟨rfl, rfl, rfl, rfl, fun hb => by cases hb⟩
    | endEdit => rw [eagerStep_endEdit_idle]; exact ⟨rfl, rfl, rfl, rfl, fun _ => rfl⟩
    | render => rw [eagerStep_render]; exact ⟨rfl, rfl, rfl, rfl, fun _ => rfl⟩
    | flushPassive => rw [eagerStep_flushPassive]; exact ⟨rfl, rfl, rfl, rfl, fun _ => rfl⟩
  | true =>
    cases a with
    | event e =>
      rw [eagerStep_event_editing]
      exact ⟨rfl, rfl, rfl, rfl, fun hb => by cases hb⟩
    | beginEdit =>
      rw [eagerStep_beginEdit]
      exact ⟨rfl, rfl, rfl, rfl, fun hb => by cases hb⟩
    | endEdit => rw [eagerStep_endEdit_editing]; exact ⟨rfl, rfl, rfl, rfl, fun _ => rfl⟩
    | render => rw [eagerStep_render]; exact ⟨rfl, rfl, rfl, rfl, fun hb => by cases hb⟩
    | flushPassive =>
      rw [eagerStep_flushPassive]
      exact ⟨rfl, rfl, rfl, rfl, fun hb => by cases hb⟩

theorem eagerStep_settled (a : Action) (c : Component) (h : AtRest c) :
    settled (eagerStep a c).state = reduceAll (settled c.state) (arrived [a]) := by
  rcases c with ⟨⟨tasks, b, q⟩, updates, handler, refreshDue, drainDue⟩
  obtain ⟨h1, h2, h3, h4, h5⟩ := h
  simp only at h1 h2 h3 h4 h5
  subst h1 h2 h3 h4
  cases handler with
  | false =>
    have hq : q = [] := h5 rfl
    subst hq
    cases a with
    | event e => rw [eagerStep_event_idle]; simp [settled, reduceAll, arrived]
    | beginEdit => rw [eagerStep_beginEdit]; simp [settled, reduceAll, arrived]
    | endEdit => rw [eagerStep_endEdit_idle]; simp [settled, reduceAll, arrived]
    | render => rw [eagerStep_render]; simp [settled, reduceAll, arrived]
    | flushPassive => rw [eagerStep_flushPassive]; simp [settled, reduceAll, arrived]
  | true =>
    cases a with
    | event e => rw [eagerStep_event_editing]; simp [settled, reduceAll, arrived]
    | beginEdit => rw [eagerStep_beginEdit]; simp [settled, reduceAll, arrived]
    | endEdit => rw [eagerStep_endEdit_editing]; simp [settled, reduceAll, arrived]
    | render => rw [eagerStep_render]; simp [settled, reduceAll, arrived]
    | flushPassive => rw [eagerStep_flushPassive]; simp [settled, reduceAll, arrived]

theorem arrived_cons (a : Action) (rest : List Action) :
    arrived (a :: rest) = arrived [a] ++ arrived rest := by
  cases a <;> simp [arrived]

theorem runEagerly_atRest (trace : List Action) (c : Component) (h : AtRest c) :
    AtRest (runEagerly c trace) := by
  induction trace generalizing c with
  | nil => exact h
  | cons a rest ih => exact ih (eagerStep a c) (eagerStep_atRest a c h)

theorem runEagerly_settled (trace : List Action) (c : Component) (h : AtRest c) :
    settled (runEagerly c trace).state = reduceAll (settled c.state) (arrived trace) := by
  induction trace generalizing c with
  | nil => simp [runEagerly, arrived, reduceAll]
  | cons a rest ih =>
    have := ih (eagerStep a c) (eagerStep_atRest a c h)
    rw [arrived_cons, reduceAll_append, ← eagerStep_settled a c h]
    exact this

/-- When React renders and runs the passive effects after every step, before the next
event or edit action, a trace that ends with the gate idle leaves the left fold of
`processTaskEvent` over the arrived events, in arrival order. -/
theorem eager_schedule_preserves_arrival_order (c : List Task) (trace : List Action)
    (hidle : (runEagerly (Component.mount (.array c)) trace).state.isEditingTask = false) :
    (runEagerly (Component.mount (.array c)) trace).state.tasks =
      reduceAll (.array c) (arrived trace) := by
  have hinit : AtRest (Component.mount (.array c)) := ⟨rfl, rfl, rfl, rfl, fun _ => rfl⟩
  have hq := (runEagerly_atRest trace _ hinit).2.2.2.2 hidle
  have hs := runEagerly_settled trace _ hinit
  simp only [settled, hq] at hs
  simpa [reduceAll, Component.mount, Dashboard.initial] using hs

/-- The scenario of the specification under the eager schedule: from `[{id:1,TO_DO}]`
the collection becomes `[{id:1,DONE},{id:2,TO_DO}]`. -/
theorem eager_schedule_scenario :
    (runEagerly (Component.mount (.array [task1])) scenario).state =
      { tasks := .array [task1Done, task2], isEditingTask := false, queuedEvents := [] } := by
  decide

/-! ## Edit gate: claims -/

/-- C1, evaluated at the failing input. `Created{id:2}` arrives during an edit session;
the session ends and `Created{id:3}` arrives after the render with `isEditingTask`
false has committed and before its passive effects have run. When nothing is left to
do the gate is idle and the collection is `[task1, task2]`, whereas the left fold of
`processTaskEvent` over the two arrived events is `[task1, task2, task3]`. -/
theorem late_event_missing_from_fold :
    (run (Component.mount (.array [task1])) lateArrival).quiescent = true ∧
    (run (Component.mount (.array [task1])) lateArrival).state.isEditingTask = false ∧
    (run (Component.mount (.array [task1])) lateArrival).state.tasks =
      .array [task1, task2] ∧
    arrived lateArrival = [created2, created3] ∧
    reduceAll (.array [task1]) (arrived lateArrival) = .array [task1, task2, task3] := by
  decide

/-- C6, evaluated at the failing input. On the same schedule: after the render that
ends the edit session the gate is idle with `Created{id:2}` still queued; the handler
held by the ref, created while editing, queues `Created{id:3}` behind it; the
queued-events effect of that render replays `[Created{id:2}]` and sets the queue to
`[]`; the next render leaves an empty queue and no task with id 3. -/
theorem queued_event_cleared_unprocessed :
    (run (Component.mount (.array [task1])) lateArrivalQueued).state.isEditingTask = false ∧
    (run (Component.mount (.array [task1])) lateArrivalQueued).state.queuedEvents =
      [created2] ∧
    (run (Component.mount (.array [task1])) lateArrivalQueued).updates =
      [.setQueuedEventsAppend created3] ∧
    (run (Component.mount (.array [task1])) (lateArrivalQueued ++ [.flushPassive])).updates =
      [.setQueuedEventsAppend created3, .setTasksReplay [created2], .setQueuedEvents []] ∧
    (run (Component.mount (.array [task1])) lateArrival).state.queuedEvents = [] ∧
    task3 ∉ (run (Component.mount (.array [task1])) lateArrival).state.tasks.taskList := by
  decide

/-! ## Connection manager: lemmas -/

theorem disconnect_client (w : World) : (disconnect w).service.client = none := by
  unfold disconnect
  split
  · rfl
  · assumption

theorem disconnect_timers (w : World) : (disconnect w).timers = w.timers := by
  unfold disconnect
  split <;> rfl

theorem disconnect_reconnectAttempts (w : World) :
    (disconnect w).service.reconnectAttempts = w.service.reconnectAttempts := by
  unfold disconnect
  split <;> rfl

theorem disconnect_scheduledDelays (w : World) :
    scheduledDelays (disconnect w) = scheduledDelays w := by
  unfold disconnect
  split
  · simp only [scheduledDelays]
    split <;> simp [List.filterMap_append, List.filterMap_map, Function.comp_def]
  · rfl

theorem disconnect_transportsOpened (w : World) :
    transportsOpened (disconnect w) = transportsOpened w := by
  unfold disconnect
  split
  · simp only [transportsOpened]
    split <;> simp [List.count_append, List.count_eq_zero]
  · rfl

theorem apply_constants (a : ServiceAction) (w : World) :
    (a.apply w).service.maxReconnectAttempts = w.service.maxReconnectAttempts ∧
    (a.apply w).service.reconnectDelay = w.service.reconnectDelay := by
  cases a with
  | connect cbs => simp only [ServiceAction.apply, connect]; split <;> simp
  | disconnect => simp only [ServiceAction.apply, disconnect]; split <;> simp
  | subscribe topic callback =>
    simp only [ServiceAction.apply, subscribe]
    split
    · split <;> simp
    · simp
  | unsubscribe topic => simp only [ServiceAction.apply, unsubscribe]; split <;> simp
  | stompConnected cbs =>
    simp only [ServiceAction.apply, onConnect, setConnected]; split <;> simp
  | stompError cbs =>
    simp only [ServiceAction.apply, onStompError]; split <;> simp
  | webSocketClosed cbs =>
    simp only [ServiceAction.apply, onWebSocketClose, setConnected, attemptReconnect]
    split <;> split <;> (try split) <;> simp
  | stompDisconnected => simp [ServiceAction.apply, onDisconnect, setConnected]
  | timerFires i =>
    simp only [ServiceAction.apply, timerFires, connect]
    split
    · split <;> simp
    · simp

/-- Effect of a transport closure while a client object is installed. -/
theorem webSocketClosed_step (cbs : Callbacks) (w : World)
    (hclient : w.service.client.isSome = true) :
    ((ServiceAction.webSocketClosed cbs).apply w).service.client.isSome = true ∧
    ((ServiceAction.webSocketClosed cbs).apply w).service.reconnectAttempts =
      (if w.service.reconnectAttempts ≥ w.service.maxReconnectAttempts
        then w.service.reconnectAttempts else w.service.reconnectAttempts + 1) ∧
    scheduledDelays ((ServiceAction.webSocketClosed cbs).apply w) =
      scheduledDelays w ++
        (if w.service.reconnectAttempts ≥ w.service.maxReconnectAttempts
          then [] else [w.service.reconnectDelay * (w.service.reconnectAttempts + 1)]) ∧
    ((ServiceAction.webSocketClosed cbs).apply w).timers.length =
      w.timers.length +
        (if w.service.reconnectAttempts ≥ w.service.maxReconnectAttempts then 0 else 1) := by
  obtain ⟨c, hc⟩ := Option.isSome_iff_exists.mp hclient
  by_cases hcap : w.service.reconnectAttempts ≥ w.service.maxReconnectAttempts
  · cases hcb : cbs.onDisconnect <;>
      simp [ServiceAction.apply, onWebSocketClose, setConnected, attemptReconnect,
        scheduledDelays, List.filterMap_append, hc, hcap, hcb]
  · cases hcb : cbs.onDisconnect <;>
      simp [ServiceAction.apply, onWebSocketClose, setConnected, attemptReconnect,
        scheduledDelays, List.filterMap_append, hc, hcap, hcb]

/-- Effect of a reconnect timer coming due while a client object is installed. -/
theorem timerFires_step (i : Nat) (w : World) (hclient : w.service.client.isSome = true) :
    ((ServiceAction.timerFires i).apply w).service.client.isSome = true ∧
    ((ServiceAction.timerFires i).apply w).service.reconnectAttempts =
      w.service.reconnectAttempts ∧
    scheduledDelays ((ServiceAction.timerFires i).apply w) = scheduledDelays w := by
  simp only [ServiceAction.apply, timerFires, connect]
  split
  · split
    · exact ⟨hclient, rfl, rfl⟩
    · simp [scheduledDelays, List.filterMap_append]
  · exact ⟨hclient, rfl, rfl⟩

theorem run_constants (trace : List ServiceAction) (w : World) :
    (runService w trace).service.maxReconnectAttempts = w.service.maxReconnectAttempts ∧
    (runService w trace).service.reconnectDelay = w.service.reconnectDelay := by
  induction trace generalizing w with
  | nil => exact ⟨rfl, rfl⟩
  | cons a rest ih =>
    have h1 := ih (a.apply w)
    have h2 := apply_constants a w
    exact ⟨h1.1.trans h2.1, h1.2.trans h2.2⟩

theorem closures_cons_closed (cbs : Callbacks) (rest : List ServiceAction) :
    closures (.webSocketClosed cbs :: rest) = closures rest + 1 := by
  simp [closures]

theorem closures_cons_timer (i : Nat) (rest : List ServiceAction) :
    closures (.timerFires i :: rest) = closures rest := by
  simp [closures]

/-- Counter and scheduled delays along a run of closures and timer firings. -/
theorem failure_run (ft : List ServiceAction) (w : World)
    (hmax : w.service.maxReconnectAttempts = 5) (hdelay : w.service.reconnectDelay = 3000)
    (hclient : w.service.client.isSome = true)
    (hle : w.service.reconnectAttempts ≤ 5)
    (hfail : ft.all ServiceAction.isFailure = true) :
    (runService w ft).service.reconnectAttempts =
      min (w.service.reconnectAttempts + closures ft) 5 ∧
    scheduledDelays (runService w ft) =
      scheduledDelays w ++
        (List.range' (w.service.reconnectAttempts + 1)
          (min (w.service.reconnectAttempts + closures ft) 5 - w.service.reconnectAttempts)).map
          (fun n => 3000 * n) := by
  induction ft generalizing w with
  | nil =>
    have : min w.service.reconnectAttempts 5 = w.service.reconnectAttempts := by omega
    simp [runService, closures, this]
  | cons a rest ih =>
    simp only [List.all_cons, Bool.and_eq_true] at hfail
    have hc := apply_constants a w
    cases a with
    | webSocketClosed cbs =>
      obtain ⟨h1, h2, h3, _⟩ := webSocketClosed_step cbs w hclient
      rw [hmax] at h2 h3
      rw [hdelay] at h3
      have hle2 : ((ServiceAction.webSocketClosed cbs).apply w).service.reconnectAttempts ≤ 5 := by
        rw [h2]; split <;> omega
      have := ih _ (hc.1.trans hmax) (hc.2.trans hdelay) h1 hle2 hfail.2
      simp only [runService, List.foldl_cons] at this ⊢
      rw [closures_cons_closed]
      by_cases hcap : w.service.reconnectAttempts ≥ 5
      · have heq : w.service.reconnectAttempts = 5 := by omega
        simp only [hcap, if_true] at h2 h3
        rw [h2] at this
        rw [this.1, this.2, h3]
        constructor
        · omega
        · rw [heq]
          have e1 : min (5 + closures rest) 5 - 5 = 0 := by omega
          have e2 : min (5 + (closures rest + 1)) 5 - 5 = 0 := by omega
          simp [e1, e2]
      · simp only [hcap, if_false] at h2 h3
        rw [h2] at this
        rw [this.1, this.2, h3]
        constructor
        · congr 1; omega
        · have e1 : w.service.reconnectAttempts + 1 + closures rest =
              w.service.reconnectAttempts + (closures rest + 1) := by omega
          have e2 : min (w.service.reconnectAttempts + (closures rest + 1)) 5 -
              w.service.reconnectAttempts =
              (min (w.service.reconnectAttempts + (closures rest + 1)) 5 -
                (w.service.reconnectAttempts + 1)) + 1 := by omega
          rw [e1, e2, List.range'_succ]
          simp
    | timerFires i =>
      obtain ⟨h1, h2, h3⟩ := timerFires_step i w hclient
      have := ih _ (hc.1.trans hmax) (hc.2.trans hdelay) h1 (by rw [h2]; exact hle) hfail.2
      simp only [runService, List.foldl_cons] at this ⊢
      rw [closures_cons_timer, this.1, this.2, h2, h3]
      exact ⟨rfl, rfl⟩
    | connect cbs => simp [ServiceAction.isFailure] at hfail
    | disconnect => simp [ServiceAction.isFailure] at hfail
    | subscribe topic callback => simp [ServiceAction.isFailure] at hfail
    | unsubscribe topic => simp [ServiceAction.isFailure] at hfail
    | stompConnected cbs => simp [ServiceAction.isFailure] at hfail
    | stompError cbs => simp [ServiceAction.isFailure] at hfail
    | stompDisconnected => simp [ServiceAction.isFailure] at hfail

theorem range_map_succ (m : Nat) :
    (List.range' 1 m).map (fun n => 3000 * n) =
      (List.range m).map (fun n => 3000 * (n + 1)) := by
  rw [List.range_eq_range', List.range'_eq_map_range, List.range_eq_range']
  simp [List.map_map, Function.comp_def, Nat.add_comm]

theorem apply_bounded (a : ServiceAction) (w : World) (h : Bounded w) :
    Bounded (a.apply w) := by
  obtain ⟨hmax, hdelay, hle, hall⟩ := h
  have hc := apply_constants a w
  refine ⟨hc.1.trans hmax, hc.2.trans hdelay, ?_⟩
  cases a with
  | connect cbs =>
    simp only [ServiceAction.apply, connect]
    split
    · exact ⟨hle, hall⟩
    · exact ⟨hle, by simpa [scheduledDelays, List.filterMap_append] using hall⟩
  | disconnect =>
    simp only [ServiceAction.apply]
    rw [disconnect_reconnectAttempts, disconnect_scheduledDelays]
    exact ⟨hle, hall⟩
  | subscribe topic callback =>
    simp only [ServiceAction.apply, subscribe]
    split
    · split
      · exact ⟨hle, hall⟩
      · exact ⟨hle, hall⟩
    · exact ⟨hle, hall⟩
  | unsubscribe topic =>
    simp only [ServiceAction.apply, unsubscribe]
    split
    · exact ⟨hle, by simpa [scheduledDelays, List.filterMap_append] using hall⟩
    · exact ⟨hle, hall⟩
  | stompConnected cbs =>
    simp only [ServiceAction.apply, onConnect, setConnected]
    split
    · exact ⟨Nat.zero_le _, by simpa [scheduledDelays, List.filterMap_append] using hall⟩
    · exact ⟨Nat.zero_le _, hall⟩
  | stompError cbs =>
    simp only [ServiceAction.apply, onStompError]
    split
    · exact ⟨hle, by simpa [scheduledDelays, List.filterMap_append] using hall⟩
    · exact ⟨hle, hall⟩
  | webSocketClosed cbs =>
    cases hclient : w.service.client with
    | none =>
      cases hcb : cbs.onDisconnect
      · simp only [ServiceAction.apply, onWebSocketClose, setConnected, hclient, hcb]
        exact ⟨hle, hall⟩
      · simp only [ServiceAction.apply, onWebSocketClose, setConnected, hclient, hcb]
        exact ⟨hle, by simpa [scheduledDelays, List.filterMap_append] using hall⟩
    | some c =>
      obtain ⟨_, h2, h3, _⟩ := webSocketClosed_step cbs w (by simp [hclient])
      rw [h2, h3, hmax, hdelay]
      by_cases hcap : w.service.reconnectAttempts ≥ 5
      · simp only [hcap, if_true, List.append_nil]
        exact ⟨hle, hall⟩
      · simp only [hcap, if_false]
        refine ⟨by omega, ?_⟩
        intro d hd
        rcases List.mem_append.mp hd with hd | hd
        · exact hall d hd
        · simp only [List.mem_singleton] at hd
          omega
  | stompDisconnected =>
    simp only [ServiceAction.apply, onDisconnect, setConnected]
    exact ⟨hle, hall⟩
  | timerFires i =>
    simp only [ServiceAction.apply, timerFires, connect]
    split
    · split
      · exact ⟨hle, hall⟩
      · exact ⟨hle, by simpa [scheduledDelays, List.filterMap_append] using hall⟩
    · exact ⟨hle, hall⟩

theorem run_bounded (trace : List ServiceAction) (w : World) (h : Bounded w) :
    Bounded (runService w trace) := by
  induction trace generalizing w with
  | nil => exact h
  | cons a rest ih => exact ih _ (apply_bounded a w h)

theorem fresh_bounded : Bounded World.fresh := by
  refine ⟨rfl, rfl, Nat.zero_le _, ?_⟩
  intro d hd
  simp [scheduledDelays, World.fresh] at hd

/-- While no client object is installed, a step that does not call `connect` installs
none, keeps the pending timers, schedules nothing and opens no transport. -/
theorem idle_step (a : ServiceAction) (w : World) (hnone : w.service.client = none)
    (ha : a.callsConnect = false) :
    (a.apply w).service.client = none ∧ (a.apply w).timers = w.timers ∧
    scheduledDelays (a.apply w) = scheduledDelays w ∧
    transportsOpened (a.apply w) = transportsOpened w := by
  cases a with
  | connect cbs => simp [ServiceAction.callsConnect] at ha
  | timerFires i => simp [ServiceAction.callsConnect] at ha
  | disconnect => simp [ServiceAction.apply, disconnect, hnone]
  | subscribe topic callback => simp [ServiceAction.apply, subscribe, hnone]
  | unsubscribe topic =>
    simp only [ServiceAction.apply, unsubscribe]
    split
    · simp [hnone, scheduledDelays, transportsOpened, List.filterMap_append,
        List.count_append]
    · exact ⟨hnone, rfl, rfl, rfl⟩
  | stompConnected cbs =>
    cases hcb : cbs.onConnect <;>
      simp [ServiceAction.apply, onConnect, setConnected, hnone, hcb, scheduledDelays,
        transportsOpened, List.filterMap_append, List.count_append]
  | stompError cbs =>
    cases hcb : cbs.onError <;>
      simp [ServiceAction.apply, onStompError, hnone, hcb, scheduledDelays,
        transportsOpened, List.filterMap_append, List.count_append]
  | webSocketClosed cbs =>
    cases hcb : cbs.onDisconnect <;>
      simp [ServiceAction.apply, onWebSocketClose, setConnected, hnone, hcb,
        scheduledDelays, transportsOpened, List.filterMap_append, List.count_append]
  | stompDisconnected =>
    simp [ServiceAction.apply, onDisconnect, setConnected, hnone, scheduledDelays,
      transportsOpened]

theorem idle_run (trace : List ServiceAction) (w : World) (hnone : w.service.client = none)
    (htrace : trace.all (fun a => !a.callsConnect) = true) :
    (runService w trace).service.client = none ∧ (runService w trace).timers = w.timers ∧
    scheduledDelays (runService w trace) = scheduledDelays w ∧
    transportsOpened (runService w trace) = transportsOpened w := by
  induction trace generalizing w with
  | nil => exact ⟨hnone, rfl, rfl, rfl⟩
  | cons a rest ih =>
    simp only [List.all_cons, Bool.and_eq_true, Bool.not_eq_true'] at htrace
    obtain ⟨h1, h2, h3, h4⟩ := idle_step a w hnone htrace.1
    obtain ⟨k1, k2, k3, k4⟩ := ih (a.apply w) h1 (by simpa using htrace.2)
    exact ⟨k1, k2.trans h2, k3.trans h3, k4.trans h4⟩

/-- A step other than a successful handshake either keeps the counter and schedules
nothing, or raises the counter by one, below the cap, and schedules one attempt with
delay `3000 *` the new counter. -/
theorem apply_progress (a : ServiceAction) (w : World) (h : Bounded w)
    (ha : a.isSuccess = false) :
    ((a.apply w).service.reconnectAttempts = w.service.reconnectAttempts ∧
      scheduledDelays (a.apply w) = scheduledDelays w) ∨
    (w.service.reconnectAttempts < 5 ∧
      (a.apply w).service.reconnectAttempts = w.service.reconnectAttempts + 1 ∧
      scheduledDelays (a.apply w) =
        scheduledDelays w ++ [3000 * (w.service.reconnectAttempts + 1)]) := by
  obtain ⟨hmax, hdelay, hle, _⟩ := h
  cases a with
  | stompConnected cbs => simp [ServiceAction.isSuccess] at ha
  | connect cbs =>
    left
    simp only [ServiceAction.apply, connect]
    split
    · exact ⟨rfl, rfl⟩
    · simp [scheduledDelays, List.filterMap_append]
  | disconnect =>
    left
    exact ⟨disconnect_reconnectAttempts w, disconnect_scheduledDelays w⟩
  | subscribe topic callback =>
    left
    simp only [ServiceAction.apply, subscribe]
    split
    · split <;> exact ⟨rfl, rfl⟩
    · exact ⟨rfl, rfl⟩
  | unsubscribe topic =>
    left
    simp only [ServiceAction.apply, unsubscribe]
    split
    · simp [scheduledDelays, List.filterMap_append]
    · exact ⟨rfl, rfl⟩
  | stompError cbs =>
    left
    simp only [ServiceAction.apply, onStompError]
    split
    · simp [scheduledDelays, List.filterMap_append]
    · exact ⟨rfl, rfl⟩
  | webSocketClosed cbs =>
    cases hclient : w.service.client with
    | none =>
      left
      cases hcb : cbs.onDisconnect <;>
        simp [ServiceAction.apply, onWebSocketClose, setConnected, hclient, hcb,
          scheduledDelays, List.filterMap_append]
    | some c =>
      obtain ⟨_, h2, h3, _⟩ := webSocketClosed_step cbs w (by simp [hclient])
      rw [h2, h3, hmax, hdelay]
      by_cases hcap : w.service.reconnectAttempts ≥ 5
      · left
        simp [hcap]
      · right
        simp only [hcap, if_false]
        exact ⟨by omega, trivial, trivial⟩
  | stompDisconnected =>
    left
    simp [ServiceAction.apply, onDisconnect, setConnected, scheduledDelays]
  | timerFires i =>
    left
    simp only [ServiceAction.apply, timerFires, connect]
    split
    · split
      · exact ⟨rfl, rfl⟩
      · simp [scheduledDelays, List.filterMap_append]
    · exact ⟨rfl, rfl⟩

/-- Along a run without a successful handshake, the attempts scheduled on top of `base`
are those numbered 1 up to the counter, each delayed by 3000 times its number. -/
theorem run_linear (ft : List ServiceAction) (w : World) (base : List Nat)
    (h : Bounded w)
    (hinv : scheduledDelays w =
      base ++ (List.range' 1 w.service.reconnectAttempts).map (fun n => 3000 * n))
    (hns : ft.all (fun a => !a.isSuccess) = true) :
    scheduledDelays (runService w ft) =
      base ++ (List.range' 1 (runService w ft).service.reconnectAttempts).map
        (fun n => 3000 * n) := by
  induction ft generalizing w with
  | nil => exact hinv
  | cons a rest ih =>
    simp only [List.all_cons, Bool.and_eq_true, Bool.not_eq_true'] at hns
    refine ih (a.apply w) (apply_bounded a w h) ?_ (by simpa using hns.2)
    rcases apply_progress a w h hns.1 with ⟨h1, h2⟩ | ⟨_, h1, h2⟩
    · rw [h1, h2]; exact hinv
    · rw [h1, h2, hinv, List.range'_1_concat]
      simp [Nat.add_comm]

/-- A client object stays installed along a run of closures and timer firings. -/
theorem failure_run_client (ft : List ServiceAction) (w : World)
    (hclient : w.service.client.isSome = true)
    (hfail : ft.all ServiceAction.isFailure = true) :
    (runService w ft).service.client.isSome = true := by
  induction ft generalizing w with
  | nil => exact hclient
  | cons a rest ih =>
    simp only [List.all_cons, Bool.and_eq_true] at hfail
    have key : (a.apply w).service.client.isSome = true := by
      cases a with
      | webSocketClosed c => exact (webSocketClosed_step c _ hclient).1
      | timerFires i => exact (timerFires_step i _ hclient).1
      | connect c => simp [ServiceAction.isFailure] at hfail
      | disconnect => simp [ServiceAction.isFailure] at hfail
      | subscribe t c => simp [ServiceAction.isFailure] at hfail
      | unsubscribe t => simp [ServiceAction.isFailure] at hfail
      | stompConnected c => simp [ServiceAction.isFailure] at hfail
      | stompError c => simp [ServiceAction.isFailure] at hfail
      | stompDisconnected => simp [ServiceAction.isFailure] at hfail
    exact ih _ key hfail.2

/-! ## Connection manager: claims -/

/-- C7. From a state of the service with the counter at 0 and a client installed, after
a run of transport closures and timer firings containing `k` closures (no successful
connection, no explicit call), exactly `min k 5` reconnect attempts have been scheduled
and the counter is `min k 5`; once 5 closures have happened, one more closure schedules
nothing, leaves the pending timers as they are and leaves the counter at 5. -/
theorem reconnect_attempts_capped (pre ft : List ServiceAction)
    (hzero : (runService World.fresh pre).service.reconnectAttempts = 0)
    (hclient : (runService World.fresh pre).service.client.isSome = true)
    (hfail : ft.all ServiceAction.isFailure = true) :
    (scheduledDelays (runService (runService World.fresh pre) ft)).length =
      (scheduledDelays (runService World.fresh pre)).length + min (closures ft) 5 ∧
    (runService (runService World.fresh pre) ft).service.reconnectAttempts =
      min (closures ft) 5 ∧
    (5 ≤ closures ft → ∀ cbs : Callbacks,
      ((ServiceAction.webSocketClosed cbs).apply
        (runService (runService World.fresh pre) ft)).service.reconnectAttempts = 5 ∧
      scheduledDelays ((ServiceAction.webSocketClosed cbs).apply
        (runService (runService World.fresh pre) ft)) =
        scheduledDelays (runService (runService World.fresh pre) ft) ∧
      ((ServiceAction.webSocketClosed cbs).apply
        (runService (runService World.fresh pre) ft)).timers.length =
        (runService (runService World.fresh pre) ft).timers.length) := by
  have hconst := run_constants pre World.fresh
  have hmax : (runService World.fresh pre).service.maxReconnectAttempts = 5 := hconst.1
  have hdelay : (runService World.fresh pre).service.reconnectDelay = 3000 := hconst.2
  obtain ⟨h1, h2⟩ := failure_run ft _ hmax hdelay hclient (by omega) hfail
  rw [hzero] at h1 h2
  simp only [Nat.zero_add, Nat.sub_zero] at h1 h2
  refine ⟨by rw [h2]; simp, h1, ?_⟩
  intro hk cbs
  have hconst2 := run_constants ft (runService World.fresh pre)
  have hsome := failure_run_client ft _ hclient hfail
  obtain ⟨_, k2, k3, k4⟩ := webSocketClosed_step cbs _ hsome
  rw [hconst2.1, hmax, h1] at k2 k3 k4
  have hmin : min (closures ft) 5 = 5 := by omega
  rw [hmin] at k2 k3 k4
  simp only [ge_iff_le, le_refl, if_true, List.append_nil, Nat.add_zero] at k2 k3 k4
  exact ⟨k2, k3, k4⟩

/-- Instance of C7: after a successful connection and six closures, five attempts have
been scheduled and the counter is 5. -/
theorem reconnect_attempts_capped_witness :
    (scheduledDelays (runService (runService World.fresh connected) sixClosures)).length =
      (scheduledDelays (runService World.fresh connected)).length + min (closures sixClosures) 5 ∧
    (runService (runService World.fresh connected) sixClosures).service.reconnectAttempts = 5 :=
  ⟨(reconnect_attempts_capped connected sixClosures (by decide) (by decide) (by decide)).1,
   (reconnect_attempts_capped connected sixClosures (by decide) (by decide) (by decide)).2.1⟩

/-- C8. From a state of the service with the counter at 0, along any run without a
successful handshake, the reconnect attempts scheduled are, in order, delayed by
`3000 * 1, ..., 3000 * m`, where `m` is the counter reached and `m ≤ 5`; and in every
run of the service from its construction no scheduled delay exceeds 15000. -/
theorem reconnect_delays_linear (pre ft : List ServiceAction)
    (hzero : (runService World.fresh pre).service.reconnectAttempts = 0)
    (hns : ft.all (fun a => !a.isSuccess) = true) :
    scheduledDelays (runService (runService World.fresh pre) ft) =
      scheduledDelays (runService World.fresh pre) ++
        (List.range (runService (runService World.fresh pre) ft).service.reconnectAttempts).map
          (fun n => 3000 * (n + 1)) ∧
    (runService (runService World.fresh pre) ft).service.reconnectAttempts ≤ 5 ∧
    ∀ trace : List ServiceAction, ∀ d ∈ scheduledDelays (runService World.fresh trace),
      d ≤ 15000 := by
  have hb := run_bounded pre World.fresh fresh_bounded
  have h2 := run_linear ft (runService World.fresh pre)
    (scheduledDelays (runService World.fresh pre)) hb (by simp [hzero]) hns
  rw [range_map_succ] at h2
  exact ⟨h2, (run_bounded ft _ hb).2.2.1,
    fun trace => (run_bounded trace World.fresh fresh_bounded).2.2.2⟩

/-- Instance of C8: after a successful connection and six closures the scheduled delays
are 3000, 6000, 9000, 12000, 15000. -/
theorem reconnect_delays_linear_witness :
    scheduledDelays (runService (runService World.fresh connected) sixClosures) =
      scheduledDelays (runService World.fresh connected) ++
        (List.range
          (runService (runService World.fresh connected) sixClosures).service.reconnectAttempts).map
          (fun n => 3000 * (n + 1)) ∧
    scheduledDelays (runService (runService World.fresh connected) sixClosures) =
      [3000, 6000, 9000, 12000, 15000] :=
  ⟨(reconnect_delays_linear connected sixClosures (by decide) (by decide)).1, by decide⟩

/-- C9, refuted as stated. After a connection, one closure and `disconnect()`, the
reconnect counter is 1, not 0. -/
theorem disconnect_counter_not_cleared :
    (runService World.fresh connectedThenClosed).service.reconnectAttempts = 1 ∧
    (disconnect (runService World.fresh connectedThenClosed)).service.reconnectAttempts ≠ 0 := by
  decide

/-- C9, amended. In every state, `disconnect()` leaves the reconnect counter at the
value it had; the handler of a successful connection is what sets it to 0. -/
theorem disconnect_keeps_counter (w : World) (cbs : Callbacks) :
    (disconnect w).service.reconnectAttempts = w.service.reconnectAttempts ∧
    (onConnect cbs w).service.reconnectAttempts = 0 := by
  refine ⟨disconnect_reconnectAttempts w, ?_⟩
  cases h : cbs.onConnect <;> simp [onConnect, h]

/-- C10, evaluated at the failing input. A connection is established and the transport
closes, so a reconnect timer is pending; the application calls `disconnect()`. The
timer is still pending after the call; when it comes due, with no `connect` call by the
application, a transport is opened and a client installed, and the next closure
schedules another attempt, at 6000 ms. -/
theorem disconnect_leaves_timer_pending :
    (disconnect (runService World.fresh connectedThenClosed)).timers =
      [{ delay := 3000, callbacks := ⟨true, true, true⟩ }] ∧
    transportsOpened (runService (runService World.fresh connectedThenClosed)
      [.disconnect, .timerFires 0]) =
      transportsOpened (runService World.fresh connectedThenClosed) + 1 ∧
    scheduledDelays (runService (runService World.fresh connectedThenClosed)
      [.disconnect, .timerFires 0, .webSocketClosed ⟨true, true, true⟩]) =
      scheduledDelays (runService World.fresh connectedThenClosed) ++ [6000] := by
  decide

/-- The guard `if (this.client)` of the close handler: after `disconnect()`, along any
run of steps in which `connect` is not called, no client is installed, no reconnect
attempt is scheduled and no transport is opened. -/
theorem closures_after_disconnect_schedule_nothing (w : World) (trace : List ServiceAction)
    (htrace : trace.all (fun a => !a.callsConnect) = true) :
    (runService (disconnect w) trace).service.client = none ∧
    scheduledDelays (runService (disconnect w) trace) = scheduledDelays w ∧
    transportsOpened (runService (disconnect w) trace) = transportsOpened w := by
  obtain ⟨h1, _, h3, h4⟩ := idle_run trace (disconnect w) (disconnect_client w) htrace
  exact ⟨h1, h3.trans (disconnect_scheduledDelays w),
    h4.trans (disconnect_transportsOpened w)⟩

/-! ## Event reducer: algebraic claims -/

/-- C13. Applying a `CREATED` event twice in succession gives the same collection as
applying it once. -/
theorem created_idempotent (c : List Task) (e : TaskEvent) (t : Task)
    (htype : e.type = "CREATED") (htask : e.task = some t) :
    processTaskEvent e (.array (processTaskEvent e (.array c))) =
      processTaskEvent e (.array c) := by
  rw [processTaskEvent_created e t (.array c) htype htask]
  simp only [TasksValue.taskList]
  by_cases h : (c.find? (fun x => x.id == t.id)).isNone = true
  · simp only [h, if_true]
    rw [processTaskEvent_created e t _ htype htask]
    simp only [TasksValue.taskList]
    have hfound : ¬ ((c ++ [t]).find? (fun x => x.id == t.id)).isNone = true := by
      rw [find_isNone_iff]
      push_neg
      exact ⟨t, by simp, rfl⟩
    simp [hfound]
  · simp only [h, if_false]
    rw [processTaskEvent_created e t _ htype htask]
    simp only [TasksValue.taskList]
    simp [h]

/-- Instance of C13: `Created{id:2}` applied twice to `[task1]` gives `[task1, task2]`,
as it does applied once. -/
theorem created_idempotent_witness :
    processTaskEvent { type := "CREATED", task := some task2, taskId := none }
      (.array (processTaskEvent { type := "CREATED", task := some task2, taskId := none }
        (.array [task1]))) =
      processTaskEvent { type := "CREATED", task := some task2, taskId := none }
        (.array [task1]) ∧
    processTaskEvent { type := "CREATED", task := some task2, taskId := none }
      (.array [task1]) = [task1, task2] :=
  ⟨created_idempotent [task1] { type := "CREATED", task := some task2, taskId := none }
    task2 rfl rfl, by decide⟩

/-- C14. A `DELETED` event returns the collection unchanged when no entry has its
`taskId`, and applying it twice gives the same collection as applying it once. -/
theorem deleted_absent_noop_and_idempotent (c : List Task) (e : TaskEvent) (i : Int)
    (htype : e.type = "DELETED") (hid : e.taskId = some i) :
    ((∀ x ∈ c, x.id ≠ i) → processTaskEvent e (.array c) = c) ∧
    processTaskEvent e (.array (processTaskEvent e (.array c))) =
      processTaskEvent e (.array c) := by
  constructor
  · intro habsent
    rw [processTaskEvent_deleted e _ htype]
    simp only [TasksValue.taskList, hid]
    split
    · apply List.filter_eq_self.mpr
      intro x hx
      simpa using habsent x hx
    · rfl
  · rw [processTaskEvent_deleted e (.array c) htype]
    simp only [TasksValue.taskList]
    by_cases h : truthy e.taskId = true
    · simp only [h, if_true]
      rw [processTaskEvent_deleted e _ htype]
      simp only [TasksValue.taskList, h, if_true, List.filter_filter, Bool.and_self]
    · simp only [h, if_false]
      rw [processTaskEvent_deleted e _ htype]
      simp only [TasksValue.taskList]
      simp [h]

/-- Instance of C14: deleting the absent id 7 from `[task1, task2]` changes nothing. -/
theorem deleted_absent_noop_and_idempotent_witness :
    processTaskEvent { type := "DELETED", task := none, taskId := some 7 }
      (.array [task1, task2]) = [task1, task2] :=
  (deleted_absent_noop_and_idempotent [task1, task2]
    { type := "DELETED", task := none, taskId := some 7 } 7 rfl rfl).1 (by decide)

/-- C16. For an event whose type is none of `CREATED`, `UPDATED`, `DELETED`,
`processTaskEvent` returns the collection unchanged. -/
theorem other_type_noop (c : List Task) (e : TaskEvent)
    (h1 : e.type ≠ "CREATED") (h2 : e.type ≠ "UPDATED") (h3 : e.type ≠ "DELETED") :
    processTaskEvent e (.array c) = c := by
  simp [processTaskEvent, h1, h2, h3, TasksValue.taskList]

/-- Instance of C16: an event of type `ARCHIVED` leaves `[task1, task2]` as it is. -/
theorem other_type_noop_witness :
    processTaskEvent { type := "ARCHIVED", task := some task0, taskId := some 1 }
      (.array [task1, task2]) = [task1, task2] :=
  other_type_noop [task1, task2] { type := "ARCHIVED", task := some task0, taskId := some 1 }
    (by decide) (by decide) (by decide)

/-! ## Subscription registry: lemmas -/

theorem mapGet_mapSet (m : List (String × Subscription)) (topic : String)
    (sub : Subscription) : mapGet (mapSet m topic sub) topic = some sub := by
  unfold mapSet
  split
  · rename_i hany
    induction m with
    | nil => simp at hany
    | cons kv rest ih =>
      by_cases hk : kv.1 = topic
      · simp [mapGet, List.find?, hk]
      · have hrest : rest.any (fun kv => kv.1 == topic) = true := by
          simpa [hk] using hany
        have hb : (kv.1 == topic) = false := by simp [hk]
        have := ih hrest
        simp only [mapGet, List.map_cons, hb, Bool.false_eq_true, if_false,
          List.find?_cons] at this ⊢
        exact this
  · rename_i hany
    have hnone : m.find? (fun kv => kv.1 == topic) = none := by
      rw [List.find?_eq_none]
      intro x hx hxt
      exact hany (List.any_eq_true.mpr ⟨x, hx, hxt⟩)
    simp [mapGet, List.find?_append, hnone]

theorem mapSet_keys_nodup (m : List (String × Subscription)) (topic : String)
    (sub : Subscription) (h : (m.map (fun kv => kv.1)).Nodup) :
    ((mapSet m topic sub).map (fun kv => kv.1)).Nodup := by
  unfold mapSet
  split
  · have hkeys : (m.map (fun kv => if kv.1 == topic then (topic, sub) else kv)).map
        (fun kv => kv.1) = m.map (fun kv => kv.1) := by
      rw [List.map_map]
      apply List.map_congr_left
      intro kv _
      by_cases hk : kv.1 = topic
      · simp [hk]
      · simp [hk]
    rw [hkeys]
    exact h
  · rename_i hany
    rw [List.map_append]
    refine List.Nodup.append h (List.nodup_singleton _) ?_
    intro k hk hk2
    simp only [List.map_cons, List.map_nil, List.mem_singleton] at hk2
    subst hk2
    obtain ⟨kv, hkv, hkey⟩ := List.mem_map.mp hk
    exact hany (List.any_eq_true.mpr ⟨kv, hkv, by simpa using hkey⟩)

theorem apply_registeredTopics_nodup (a : ServiceAction) (w : World)
    (h : (registeredTopics w).Nodup) : (registeredTopics (a.apply w)).Nodup := by
  unfold registeredTopics at h ⊢
  cases a with
  | connect cbs => simp only [ServiceAction.apply, connect]; split <;> exact h
  | disconnect =>
    simp only [ServiceAction.apply, disconnect]
    split
    · exact List.nodup_nil
    · exact h
  | subscribe topic callback =>
    simp only [ServiceAction.apply, subscribe]
    split
    · split
      · exact mapSet_keys_nodup _ _ _ h
      · exact h
    · exact h
  | unsubscribe topic =>
    simp only [ServiceAction.apply, unsubscribe]
    split
    · exact List.Nodup.sublist (List.Sublist.map _ (List.filter_sublist _)) h
    · exact h
  | stompConnected cbs =>
    simp only [ServiceAction.apply, onConnect, setConnected]; split <;> exact h
  | stompError cbs =>
    simp only [ServiceAction.apply, onStompError]; split <;> exact h
  | webSocketClosed cbs =>
    simp only [ServiceAction.apply, onWebSocketClose, setConnected, attemptReconnect]
    split <;> split <;> (try split) <;> exact h
  | stompDisconnected => exact h
  | timerFires i =>
    simp only [ServiceAction.apply, timerFires, connect]
    split
    · split <;> exact h
    · exact h

theorem run_registeredTopics_nodup (trace : List ServiceAction) (w : World)
    (h : (registeredTopics w).Nodup) : (registeredTopics (runService w trace)).Nodup := by
  induction trace generalizing w with
  | nil => exact h
  | cons a rest ih => exact ih _ (apply_registeredTopics_nodup a w h)

/-! ## Subscription registry and connection manager: further claims -/

/-- C11, refuted as stated. After two `subscribe` calls for the tasks topic while
connected, a message on the topic reaches handler 1 and handler 2, although the map
has a single entry for the topic; `unsubscribe` then cancels the second subscription
only, and handler 1 keeps receiving. -/
theorem second_subscribe_leaves_first_live :
    deliver TASK_TOPIC (runService World.fresh subscribedTwice) = [1, 2] ∧
    registeredTopics (runService World.fresh subscribedTwice) = [TASK_TOPIC] ∧
    deliver TASK_TOPIC
      (runService World.fresh (subscribedTwice ++ [.unsubscribe TASK_TOPIC])) = [1] := by
  decide

/-- C11, amended. While connected, `subscribe(topic, handler)` returns a new handle,
makes it the map's entry for the topic, and adds one live subscription without
cancelling any: a message on the topic is afterwards delivered to the handlers that
received it before and to the new one. In every run of the service the map has at most
one entry per topic. -/
theorem subscribe_adds_live_subscription (topic : String) (callback : Nat) (w : World)
    (c : Client) (hclient : w.service.client = some c) (hconnected : c.connected = true) :
    (subscribe topic callback w).1 =
      some { client := c.serial, id := c.counter, topic := topic, callback := callback } ∧
    mapGet (subscribe topic callback w).2.service.subscriptions topic =
      (subscribe topic callback w).1 ∧
    deliver topic (subscribe topic callback w).2 = deliver topic w ++ [callback] ∧
    ∀ trace : List ServiceAction, (registeredTopics (runService World.fresh trace)).Nodup := by
  refine ⟨?_, ?_, ?_, ?_⟩
  · simp [subscribe, hclient, hconnected]
  · simp [subscribe, hclient, hconnected, mapGet_mapSet]
  · simp [subscribe, deliver, hclient, hconnected, List.filter_append]
  · intro trace
    exact run_registeredTopics_nodup trace World.fresh List.nodup_nil

/-- Instance of C11 amended: on a connected service with handler 1 subscribed,
subscribing handler 2 makes deliveries go to handler 1 and to handler 2. -/
theorem subscribe_adds_live_subscription_witness :
    deliver TASK_TOPIC
      (subscribe TASK_TOPIC 2
        (runService World.fresh (connected ++ [.subscribe TASK_TOPIC 1]))).2 =
      deliver TASK_TOPIC (runService World.fresh (connected ++ [.subscribe TASK_TOPIC 1])) ++
        [2] ∧
    deliver TASK_TOPIC (runService World.fresh (connected ++ [.subscribe TASK_TOPIC 1])) =
      [1] :=
  ⟨(subscribe_adds_live_subscription TASK_TOPIC 2
      (runService World.fresh (connected ++ [.subscribe TASK_TOPIC 1]))
      { serial := 0, callbacks := ⟨true, true, true⟩, connected := true, active := true,
        subscriptions := [{ client := 0, id := 0, topic := TASK_TOPIC, callback := 1 }],
        counter := 1 }
      (by decide) rfl).2.2.1,
   by decide⟩

/-- The error notification alone, on a freshly connecting service, invokes the error
callback and schedules nothing: no timer, no delay, counter 0; a transport
closure in the same state schedules an attempt after 3000 ms and sets the counter to 1. -/
theorem stomp_error_schedules_nothing :
    (runService World.fresh
      [.connect ⟨true, true, true⟩, .stompError ⟨true, true, true⟩]).log =
      [.openTransport, .onError] ∧
    (runService World.fresh
      [.connect ⟨true, true, true⟩, .stompError ⟨true, true, true⟩]).timers = [] ∧
    (runService World.fresh
      [.connect ⟨true, true, true⟩, .stompError ⟨true, true, true⟩]).service.reconnectAttempts
      = 0 ∧
    scheduledDelays (runService World.fresh
      [.connect ⟨true, true, true⟩, .webSocketClosed ⟨true, true, true⟩]) = [3000] := by
  decide

/-- In every state, the protocol-error handler clears `isConnecting` and
invokes the error callback once when one was passed, and does nothing else: the
pending timers, the scheduled delays, the counter and the client are as before. -/
theorem stomp_error_reports_only (cbs : Callbacks) (w : World) :
    ((ServiceAction.stompError cbs).apply w).log =
      w.log ++ (if cbs.onError then [Effect.onError] else []) ∧
    ((ServiceAction.stompError cbs).apply w).service.isConnecting = false ∧
    ((ServiceAction.stompError cbs).apply w).timers = w.timers ∧
    scheduledDelays ((ServiceAction.stompError cbs).apply w) = scheduledDelays w ∧
    ((ServiceAction.stompError cbs).apply w).service.reconnectAttempts =
      w.service.reconnectAttempts ∧
    ((ServiceAction.stompError cbs).apply w).service.client = w.service.client := by
  cases h : cbs.onError <;>
    simp [ServiceAction.apply, onStompError, h, scheduledDelays, List.filterMap_append]

/-- C15, refuted as stated. When `disconnect()` is called before the handshake
completes, the client is dropped without being deactivated; once its handshake
succeeds, `connect` opens a second transport: two transports have been opened, none
has closed and none has been deactivated. -/
theorem second_transport_after_early_disconnect :
    transportsOpened (runService World.fresh reconnectAfterEarlyDisconnect) = 2 ∧
    closures reconnectAfterEarlyDisconnect = 0 ∧
    Effect.deactivate ∉ (runService World.fresh reconnectAfterEarlyDisconnect).log := by
  decide

/-- C15, amended. When `isConnecting` is true or the client is connected, `connect`
returns the state as it was (client, map, counter and `isConnecting` included) and
opens no transport. -/
theorem connect_noop_when_busy (cbs : Callbacks) (w : World)
    (hbusy : w.service.isConnecting = true ∨ w.service.clientConnected = true) :
    connect cbs w = w ∧ transportsOpened (connect cbs w) = transportsOpened w := by
  have h : connect cbs w = w := by
    unfold connect
    rcases hbusy with h1 | h1 <;> simp [h1]
  exact ⟨h, by rw [h]⟩

/-- Instance of C15 amended: a second `connect` while the first is still connecting, and
a `connect` on a connected service, change nothing. -/
theorem connect_noop_when_busy_witness :
    connect hookCallbacks (runService World.fresh [.connect hookCallbacks]) =
      runService World.fresh [.connect hookCallbacks] ∧
    connect hookCallbacks (runService World.fresh connected) =
      runService World.fresh connected :=
  ⟨(connect_noop_when_busy hookCallbacks (runService World.fresh [.connect hookCallbacks])
      (Or.inl (by decide))).1,
   (connect_noop_when_busy hookCallbacks (runService World.fresh connected)
      (Or.inr (by decide))).1⟩

/-- C12. When a protocol error occurs on a service with a client installed, the error
callback is invoked exactly once, and the counter, the scheduled delays and the number
of pending timers are afterwards what a transport closure alone gives; below the cap
the counter goes from `n` to `n + 1` and one attempt is scheduled with delay
`3000 * (n + 1)`. -/
theorem protocol_error_reports_then_reconnects (pre : List ServiceAction) (cbs : Callbacks)
    (hclient : (runService World.fresh pre).service.client.isSome = true)
    (honError : cbs.onError = true) :
    (runService (runService World.fresh pre) (protocolError cbs)).log.count Effect.onError =
      (runService World.fresh pre).log.count Effect.onError + 1 ∧
    (runService (runService World.fresh pre) (protocolError cbs)).service.reconnectAttempts =
      ((ServiceAction.webSocketClosed cbs).apply
        (runService World.fresh pre)).service.reconnectAttempts ∧
    scheduledDelays (runService (runService World.fresh pre) (protocolError cbs)) =
      scheduledDelays ((ServiceAction.webSocketClosed cbs).apply (runService World.fresh pre)) ∧
    (runService (runService World.fresh pre) (protocolError cbs)).timers.length =
      ((ServiceAction.webSocketClosed cbs).apply (runService World.fresh pre)).timers.length ∧
    ((runService World.fresh pre).service.reconnectAttempts < 5 →
      (runService (runService World.fresh pre) (protocolError cbs)).service.reconnectAttempts =
        (runService World.fresh pre).service.reconnectAttempts + 1 ∧
      scheduledDelays (runService (runService World.fresh pre) (protocolError cbs)) =
        scheduledDelays (runService World.fresh pre) ++
          [3000 * ((runService World.fresh pre).service.reconnectAttempts + 1)]) := by
  have hconst := run_constants pre World.fresh
  have hmax : (runService World.fresh pre).service.maxReconnectAttempts = 5 := hconst.1
  have hdelay : (runService World.fresh pre).service.reconnectDelay = 3000 := hconst.2
  generalize runService World.fresh pre = w at hclient hmax hdelay
  obtain ⟨e1, _, e3, e4, e5, e6⟩ := stomp_error_reports_only cbs w
  have hc1 := apply_constants (ServiceAction.stompError cbs) w
  have hclient1 : ((ServiceAction.stompError cbs).apply w).service.client.isSome = true := by
    rw [e6]; exact hclient
  obtain ⟨_, a2, a3, a4⟩ := webSocketClosed_step cbs w hclient
  obtain ⟨_, b2, b3, b4⟩ := webSocketClosed_step cbs _ hclient1
  simp only [hc1.1, hc1.2, e3, e4, e5] at b2 b3 b4
  have hrun : runService w (protocolError cbs) =
      (ServiceAction.webSocketClosed cbs).apply ((ServiceAction.stompError cbs).apply w) := rfl
  rw [hrun]
  refine ⟨?_, b2.trans a2.symm, b3.trans a3.symm, b4.trans a4.symm, ?_⟩
  · obtain ⟨c, hc⟩ := Option.isSome_iff_exists.mp hclient
    by_cases hcap : w.service.reconnectAttempts ≥ w.service.maxReconnectAttempts <;>
      cases hcb : cbs.onDisconnect <;>
        simp [ServiceAction.apply, onStompError, onWebSocketClose, setConnected,
          attemptReconnect, hc, hcap, hcb, honError, List.count_append]
  · intro hlt
    have hcap : ¬ w.service.reconnectAttempts ≥ 5 := by omega
    simp only [hmax, hdelay, hcap, if_false] at b2 b3
    exact ⟨b2, b3⟩

/-- Instance of C12: a protocol error during the first handshake invokes the error
callback once and schedules one attempt, after 3000 ms. -/
theorem protocol_error_reports_then_reconnects_witness :
    (runService (runService World.fresh [.connect hookCallbacks])
      (protocolError hookCallbacks)).log.count Effect.onError = 1 ∧
    scheduledDelays (runService (runService World.fresh [.connect hookCallbacks])
      (protocolError hookCallbacks)) = [3000] ∧
    (runService (runService World.fresh [.connect hookCallbacks])
      (protocolError hookCallbacks)).service.reconnectAttempts = 1 :=
  ⟨(protocol_error_reports_then_reconnects [.connect hookCallbacks] hookCallbacks
      (by decide) rfl).1,
   ((protocol_error_reports_then_reconnects [.connect hookCallbacks] hookCallbacks
      (by decide) rfl).2.2.2.2 (by decide)).2,
   ((protocol_error_reports_then_reconnects [.connect hookCallbacks] hookCallbacks
      (by decide) rfl).2.2.2.2 (by decide)).1⟩

end Kanban
